import Mathlib

/-!
Verification of the balanced-dataset assembly pipeline
(`src/create_balanced_preprocessed_dataset.py`).

The pipeline is shallowly embedded: a pandas `DataFrame` row becomes an
`Article` structure, dataframe-level stages become functions on
`List Article`, and the schema standardizer (which operates on column
names) is modelled on association lists from column name to cell value.
External libraries are treated as parameters constrained by their
documented behaviour: the NLTK tokenizer is an arbitrary function
`String → List String`, and the seeded pandas `DataFrame.sample` is a
parameter `sampler : Nat → Nat → List Article → List Article`
(seed, size, rows) assumed to return the requested number of rows drawn
from its input (`SamplerOK`).  All character-class reasoning models the
ASCII fragment of Python's regex classes (`\w`, `\s`), which is the
fragment exercised by the corpus and by every concrete example below.
-/

/-- Canonical article record: one row of the combined dataframe after
schema standardization and year extraction.  `url = none` and
`body_text = none` model pandas `NaN` cells (a non-string cell is
modelled the same way, since `clean_text` treats both identically). -/
structure Article where
  id : Nat
  url : Option String
  body_text : Option String
  clean_text : String
  tokens : List String
  token_count : Nat
  year : Option Int
  source : String
  source_category : String
deriving DecidableEq

/-- ASCII fragment of Python's regex class `\s`: space, tab, newline,
carriage return, vertical tab, form feed. -/
def pyIsSpace (c : Char) : Bool :=
  (c == ' ') || (c == '\t') || (c == '\n') || (c == '\r') ||
  (c == Char.ofNat 11) || (c == Char.ofNat 12)

/-- ASCII fragment of Python's regex class `\w`: letters, digits, underscore. -/
def isWordChar (c : Char) : Bool :=
  c.isAlphanum || (c == '_')

/-- Punctuation kept by `clean_text`'s whitelist `[^\w\s\.\,\!\?\'\"\-]`. -/
def allowedPunct (c : Char) : Bool :=
  (c == '.') || (c == ',') || (c == '!') || (c == '?') ||
  (c == Char.ofNat 39) || (c == Char.ofNat 34) || (c == '-')

/-- Match of the regex alternative `http\S+` at the head of the input:
the literal `http` followed by at least one non-whitespace character. -/
def httpMatch : List Char → Bool
  | 'h' :: 't' :: 't' :: 'p' :: d :: _ => !pyIsSpace d
  | _ => false

/-- Match of the regex alternative `www\S+` at the head of the input. -/
def wwwMatch : List Char → Bool
  | 'w' :: 'w' :: 'w' :: d :: _ => !pyIsSpace d
  | _ => false

/-- Fuelled scanner for `re.sub(r'http\S+|www\S+', '', text)`: at each
position, a match consumes the literal prefix plus the maximal run of
non-whitespace characters and deletes it; otherwise the character is
kept.  Fuel bounds the recursion; `stripUrls` supplies `s.length`,
which suffices because every step consumes at least one character. -/
def stripUrlsGo : Nat → List Char → List Char
  | 0, s => s
  | _ + 1, [] => []
  | fuel + 1, c :: cs =>
    if httpMatch (c :: cs) then
      stripUrlsGo fuel (List.dropWhile (fun d => !pyIsSpace d) ((c :: cs).drop 4))
    else if wwwMatch (c :: cs) then
      stripUrlsGo fuel (List.dropWhile (fun d => !pyIsSpace d) ((c :: cs).drop 3))
    else
      c :: stripUrlsGo fuel cs

/-- Embedding of `re.sub(r'http\S+|www\S+', '', text)`. -/
def stripUrls (s : List Char) : List Char := stripUrlsGo s.length s

/-- Remainder of the input after the first `'>'`, or `none` if there is
no `'>'` at all (an unclosed tag is not a match and stays literal). -/
def afterGt : List Char → Option (List Char)
  | [] => none
  | c :: cs => if c = '>' then some cs else afterGt cs

/-- Match of `<[^>]+>` given the characters after a leading `'<'`:
requires at least one non-`'>'` character before the closing `'>'`;
returns the remainder after the closing `'>'`. -/
def tagRest (cs : List Char) : Option (List Char) :=
  match cs with
  | [] => none
  | d :: ds => if d = '>' then none else afterGt ds

/-- Fuelled scanner for `re.sub(r'<[^>]+>', '', text)`. -/
def stripTagsGo : Nat → List Char → List Char
  | 0, s => s
  | _ + 1, [] => []
  | fuel + 1, c :: cs =>
    if c = '<' then
      match tagRest cs with
      | some rest => stripTagsGo fuel rest
      | none => c :: stripTagsGo fuel cs
    else
      c :: stripTagsGo fuel cs

/-- Embedding of `re.sub(r'<[^>]+>', '', text)`. -/
def stripTags (s : List Char) : List Char := stripTagsGo s.length s

/-- Embedding of `re.sub(r'[^\w\s\.\,\!\?\'\"\-]', ' ', text)`: every
character outside the whitelist is replaced by a single space (the
source substitutes `' '`, it does not delete). -/
def substSpecial (s : List Char) : List Char :=
  s.map (fun c => if isWordChar c || pyIsSpace c || allowedPunct c then c else ' ')

/-- Fuelled scanner for `re.sub(r'\s+', ' ', text)`: each maximal run
of whitespace characters becomes a single space. -/
def collapseWsGo : Nat → List Char → List Char
  | 0, s => s
  | _ + 1, [] => []
  | fuel + 1, c :: cs =>
    if pyIsSpace c then ' ' :: collapseWsGo fuel (List.dropWhile pyIsSpace cs)
    else c :: collapseWsGo fuel cs

/-- Embedding of `re.sub(r'\s+', ' ', text)`. -/
def collapseWs (s : List Char) : List Char := collapseWsGo s.length s

/-- Embedding of Python `str.strip()`: drop whitespace from both ends. -/
def pyStrip (s : List Char) : List Char :=
  ((s.dropWhile pyIsSpace).reverse.dropWhile pyIsSpace).reverse

/-- Embedding of `clean_text`.  The input `none` models a pandas `NaN`
or any non-string cell (the source returns `""` for both); for a string
the four `re.sub`/`strip` steps are applied in source order. -/
def clean_text (text : Option String) : String :=
  match text with
  | none => ""
  | some s => ⟨pyStrip (collapseWs (substSpecial (stripTags (stripUrls s.data))))⟩

/-- Definition following the specification's wording of the Clean
operation, for comparison with the source's `clean_text`: it says
characters outside the whitelist are removed, i.e. deleted, where the
source instead substitutes a space.  The other steps are as described. -/
def clean_text_spec (text : Option String) : String :=
  match text with
  | none => ""
  | some s =>
    ⟨pyStrip (collapseWs ((stripTags (stripUrls s.data)).filter
      (fun c => isWordChar c || pyIsSpace c || allowedPunct c)))⟩

/-- Helper for `drop_duplicates_url`: `seen` is the set of url values
already encountered, in pandas semantics where `NaN` (here `none`)
compares equal to `NaN` for duplicate detection. -/
def dropDupGo (seen : List (Option String)) : List Article → List Article
  | [] => []
  | r :: rs =>
    if seen.contains r.url then dropDupGo seen rs
    else r :: dropDupGo (r.url :: seen) rs

/-- Embedding of `combined_df.drop_duplicates(subset=['url'], keep='first')`:
keep the first record for each url value, in traversal order.  As in
pandas, a missing url (`none`) is a value like any other, so two
`NaN`-url rows are duplicates of each other. -/
def drop_duplicates_url (df : List Article) : List Article := dropDupGo [] df

/-- Embedding of the guarded dedup stage of `main`:
`if 'url' in combined_df.columns: combined_df.drop_duplicates(...)`.
When the combined dataframe has no url column the stage is skipped. -/
def dedupStage (hasUrlColumn : Bool) (df : List Article) : List Article :=
  if hasUrlColumn then drop_duplicates_url df else df

/-- Minimum token count required for an article (source constant). -/
def MIN_TOKENS : Nat := 20

/-- Embedding of `filter_short_articles`:
`df[df['token_count'] >= min_tokens]`. -/
def filter_short_articles (df : List Article) (min_tokens : Nat) : List Article :=
  df.filter (fun r => min_tokens ≤ r.token_count)

/-- Embedding of `preprocess_articles` with the NLTK tokenizer abstracted
as `tok` (the tokenizer is an external collaborator; `token_count` is
recomputed as the length of the token list, as in the source). -/
def preprocess_articles (tok : String → List String) (df : List Article) : List Article :=
  df.map (fun r =>
    let ct := clean_text r.body_text
    let tks := tok ct
    { r with clean_text := ct, tokens := tks, token_count := tks.length })

/-- Predicate for `combined_df['year'].between(2017, 2024)`: pandas
`between` is inclusive on both ends and `NaN` never satisfies it. -/
def yearInRange (r : Article) : Bool :=
  match r.year with
  | some y => decide (2017 ≤ y) && decide (y ≤ 2024)
  | none => false

/-- Specification of the behaviour of the seeded pandas
`DataFrame.sample(n=n, random_state=seed)` used by the source: for a
request of at most the population size it returns exactly `n` rows, all
drawn from the input.  The concrete pseudo-random choice is internal to
pandas/numpy and is abstracted. -/
def SamplerOK (sampler : Nat → Nat → List Article → List Article) : Prop :=
  ∀ seed n l, n ≤ l.length →
    (sampler seed n l).length = n ∧ ∀ r, r ∈ sampler seed n l → r ∈ l

/-- Simplest sampler satisfying `SamplerOK`: take the first `n` rows. -/
def takeSampler : Nat → Nat → List Article → List Article :=
  fun _ n l => l.take n

/-- One iteration of the year loop in `create_balanced_dataset`: the two
per-year restrictions, `n_sample = min`, and the `if n_sample > 0` guard
producing the concatenated pair of samples (or nothing). -/
def yearFrame (sampler : Nat → Nat → List Article → List Article)
    (random_state : Nat) (chinese_df western_df : List Article) (year : Int) :
    Option (List Article) :=
  let chinese_year := chinese_df.filter (fun r => r.year = some year)
  let western_year := western_df.filter (fun r => r.year = some year)
  let n_sample := min chinese_year.length western_year.length
  if 0 < n_sample then
    some (sampler random_state n_sample chinese_year ++
          sampler random_state n_sample western_year)
  else none

/-- Value of `n_sample` for a given year: the minimum of the two
per-category, per-year record counts. -/
def nMin (chinese_df western_df : List Article) (y : Int) : Nat :=
  min (chinese_df.filter (fun r => r.year = some y)).length
      (western_df.filter (fun r => r.year = some y)).length

/-- The `chinese_df` restriction of `create_balanced_dataset`. -/
def chineseOf (df : List Article) : List Article :=
  df.filter (fun r => r.source_category = "Chinese State Media")

/-- The `western_df` restriction of `create_balanced_dataset`. -/
def westernOf (df : List Article) : List Article :=
  df.filter (fun r => r.source_category = "Western Media")

/-- The `years` list of `create_balanced_dataset`:
`sorted(df['year'].dropna().unique())` restricted to `2017 <= y <= 2024`.
Sorting after removing duplicates yields the same integer list as
Python's `sorted` over the unique values. -/
def balancedYears (df : List Article) : List Int :=
  (List.insertionSort (· ≤ ·) (df.filterMap (fun r => r.year)).dedup).filter
    (fun y => decide (2017 ≤ y) && decide (y ≤ 2024))

/-- The `balanced_samples` list accumulated by the year loop (each
iteration appends the Chinese sample then the Western sample; here the
pair is kept as one concatenated frame, which flattens identically). -/
def balancedFrames (sampler : Nat → Nat → List Article → List Article)
    (df : List Article) (random_state : Nat) : List (List Article) :=
  (balancedYears df).filterMap
    (yearFrame sampler random_state (chineseOf df) (westernOf df))

/-- Embedding of `create_balanced_dataset`.  The final
`pd.concat(balanced_samples)` raises `ValueError` on an empty list of
frames; that failure is the `Except.error` case. -/
def create_balanced_dataset (sampler : Nat → Nat → List Article → List Article)
    (df : List Article) (random_state : Nat) : Except String (List Article) :=
  if (balancedFrames sampler df random_state).isEmpty then
    Except.error "No objects to concatenate"
  else Except.ok (balancedFrames sampler df random_state).flatten

/-- Stages of `main` between the combine step and balancing: year-range
filter, guarded dedup, preprocessing, short-article filter. -/
def pipelineCorpus (tok : String → List String) (hasUrlColumn : Bool)
    (chinese_df western_df : List Article) : List Article :=
  filter_short_articles
    (preprocess_articles tok
      (dedupStage hasUrlColumn ((chinese_df ++ western_df).filter yearInRange)))
    MIN_TOKENS

/-- Embedding of `main` from the load step onwards.  The two loaded
per-category dataframes are the inputs; `Except.error` is the early
`return` after the load-failure message (no artifact is produced), and
`Except.ok balanced` is the state from which both output artifacts (the
CSV projection and the pickle) are written. -/
def mainPipeline (sampler : Nat → Nat → List Article → List Article)
    (tok : String → List String) (hasUrlColumn : Bool)
    (chinese_df western_df : List Article) (seed : Nat) :
    Except String (List Article) :=
  if chinese_df.length = 0 ∨ western_df.length = 0 then
    Except.error "ERROR: Could not load data from one or both sources!"
  else
    create_balanced_dataset sampler (pipelineCorpus tok hasUrlColumn chinese_df western_df) seed

/-- Number of records of `l` with the given source category and year. -/
def countCatYear (cat : String) (y : Int) (l : List Article) : Nat :=
  (l.filter (fun r => decide (r.source_category = cat) && decide (r.year = some y))).length

/-- Number of records of `l` with the given year. -/
def countYear (y : Int) (l : List Article) : Nat :=
  (l.filter (fun r => r.year = some y)).length

/-- Concrete article builder used by the closed test instances below. -/
def mkArt (i : Nat) (cat : String) (y : Option Int) (u : Option String) (tc : Nat) : Article :=
  { id := i, url := u, body_text := none, clean_text := "", tokens := [],
    token_count := tc, year := y, source := "demo", source_category := cat }

/-- Association-list model of a dataframe's columns for
`standardize_columns`: column name paired with the column's content. -/
abbrev Row := List (String × String)

/-- Column-name membership, `old_name in df.columns`. -/
def containsKey (k : String) (r : Row) : Bool := r.any (fun p => p.1 = k)

/-- Embedding of `df.rename(columns={old: new})`: every column named
`old` is relabelled `new`, order and content unchanged. -/
def renameKey (old new : String) (r : Row) : Row :=
  r.map (fun p => if p.1 = old then (new, p.2) else p)

/-- The source's `column_mapping` dict in its insertion (iteration) order. -/
def column_mapping : List (String × String) :=
  [("title", "headline"), ("Title", "headline"), ("headline", "headline"),
   ("Headline", "headline"), ("body", "body_text"), ("Body", "body_text"),
   ("body_text", "body_text"), ("text", "body_text"), ("content", "body_text"),
   ("article_text", "body_text"), ("date", "publication_date"),
   ("Date", "publication_date"), ("publication_date", "publication_date"),
   ("pub_date", "publication_date"), ("seendate", "publication_date")]

/-- One loop iteration of `standardize_columns`: rename `old` to `new`
only when `old` is a column and `new` is not. -/
def standardizeStep (df : Row) (entry : String × String) : Row :=
  if containsKey entry.1 df ∧ ¬ containsKey entry.2 df then
    renameKey entry.1 entry.2 df
  else df

/-- Embedding of `standardize_columns`: fold the rename loop over the
alias table in iteration order. -/
def standardize_columns (df : Row) : Row :=
  column_mapping.foldl standardizeStep df

/-- Characterization of the dedup scan: restricted to any single url
value `key`, the output is empty when `key` was already seen, and
otherwise consists of exactly the first input record carrying `key`. -/
theorem dropDupGo_filter (key : Option String) :
    ∀ (l : List Article) (seen : List (Option String)),
    (dropDupGo seen l).filter (fun r => r.url = key) =
      if key ∈ seen then [] else (l.filter (fun r => r.url = key)).take 1 := by
  intro l
  induction l with
  | nil => intro seen; simp [dropDupGo]
  | cons r rs ih =>
    intro seen
    by_cases hseen : r.url ∈ seen
    · by_cases hkey : r.url = key
      · subst hkey
        simp [dropDupGo, hseen, List.filter_cons, ih seen]
      · simp [dropDupGo, hseen, List.filter_cons, hkey, ih seen]
    · by_cases hkey : r.url = key
      · subst hkey
        simp [dropDupGo, hseen, List.filter_cons, ih (r.url :: seen)]
      · have hks : (key ∈ r.url :: seen) ↔ key ∈ seen := by
          constructor
          · intro h
            rcases List.mem_cons.mp h with h1 | h2
            · exact absurd h1.symm hkey
            · exact h2
          · intro h
            exact List.mem_cons_of_mem _ h
        simp [dropDupGo, hseen, List.filter_cons, hkey, ih (r.url :: seen), hks]

/-- The take-first sampler satisfies the pandas sampling contract. -/
theorem takeSampler_ok : SamplerOK takeSampler := by
  intro seed n l hn
  constructor
  · simp [takeSampler, List.length_take, Nat.min_eq_left hn]
  · intro r hr
    exact List.take_subset n l hr

/-- Unfolding of a successful `yearFrame`: the guard `0 < n_sample`
held and the frame is the concatenation of the two seeded samples. -/
theorem yearFrame_some {sampler : Nat → Nat → List Article → List Article}
    {seed : Nat} {cdf wdf : List Article} {y : Int} {F : List Article}
    (hF : yearFrame sampler seed cdf wdf y = some F) :
    0 < nMin cdf wdf y ∧
    F = sampler seed (nMin cdf wdf y) (cdf.filter (fun r => r.year = some y)) ++
        sampler seed (nMin cdf wdf y) (wdf.filter (fun r => r.year = some y)) := by
  simp only [yearFrame, nMin] at hF ⊢
  split at hF
  · rename_i hpos
    exact ⟨hpos, (Option.some_inj.mp hF).symm⟩
  · exact absurd hF (by simp)

/-- A year whose loop iteration produced no frame has `n_sample = 0`. -/
theorem yearFrame_none {sampler : Nat → Nat → List Article → List Article}
    {seed : Nat} {cdf wdf : List Article} {y : Int}
    (hF : yearFrame sampler seed cdf wdf y = none) :
    nMin cdf wdf y = 0 := by
  simp only [yearFrame, nMin] at hF ⊢
  split at hF
  · exact absurd hF (by simp)
  · omega

/-- Every record of a produced frame carries the frame's year. -/
theorem yearFrame_year {sampler : Nat → Nat → List Article → List Article}
    {seed : Nat} {cdf wdf : List Article} {y : Int} {F : List Article}
    (hs : SamplerOK sampler)
    (hF : yearFrame sampler seed cdf wdf y = some F) :
    ∀ r ∈ F, r.year = some y := by
  obtain ⟨hpos, hFeq⟩ := yearFrame_some hF
  subst hFeq
  intro r hr
  rcases List.mem_append.mp hr with h | h
  · have hmem := (hs seed _ _ (Nat.min_le_left _ _)).2 r h
    have := (List.mem_filter.mp hmem).2
    exact of_decide_eq_true this
  · have hmem := (hs seed _ _ (Nat.min_le_right _ _)).2 r h
    have := (List.mem_filter.mp hmem).2
    exact of_decide_eq_true this

/-- Category-and-year count splits over append. -/
theorem countCatYear_append (cat : String) (y : Int) (l₁ l₂ : List Article) :
    countCatYear cat y (l₁ ++ l₂) = countCatYear cat y l₁ + countCatYear cat y l₂ := by
  simp [countCatYear, List.filter_append]

/-- Category-and-year counts of one produced frame: the frame holds
exactly `n_sample` records of each category for its own year, and no
record counted under any other year. -/
theorem yearFrame_count {sampler : Nat → Nat → List Article → List Article}
    {seed : Nat} {cdf wdf : List Article} {y : Int} {F : List Article}
    (hs : SamplerOK sampler)
    (hc : ∀ r ∈ cdf, r.source_category = "Chinese State Media")
    (hw : ∀ r ∈ wdf, r.source_category = "Western Media")
    (hF : yearFrame sampler seed cdf wdf y = some F) (y' : Int) :
    countCatYear "Chinese State Media" y' F = (if y' = y then nMin cdf wdf y else 0) ∧
    countCatYear "Western Media" y' F = (if y' = y then nMin cdf wdf y else 0) := by
  obtain ⟨hpos, hFeq⟩ := yearFrame_some hF
  subst hFeq
  have hbC : nMin cdf wdf y ≤ (cdf.filter (fun r => r.year = some y)).length := by
    unfold nMin
    exact Nat.min_le_left _ _
  have hbW : nMin cdf wdf y ≤ (wdf.filter (fun r => r.year = some y)).length := by
    unfold nMin
    exact Nat.min_le_right _ _
  have hlenC := (hs seed (nMin cdf wdf y) (cdf.filter (fun r => r.year = some y)) hbC).1
  have hsubC := (hs seed (nMin cdf wdf y) (cdf.filter (fun r => r.year = some y)) hbC).2
  have hlenW := (hs seed (nMin cdf wdf y) (wdf.filter (fun r => r.year = some y)) hbW).1
  have hsubW := (hs seed (nMin cdf wdf y) (wdf.filter (fun r => r.year = some y)) hbW).2
  have hmemC : ∀ r ∈ sampler seed (nMin cdf wdf y) (cdf.filter (fun r => r.year = some y)),
      r.source_category = "Chinese State Media" ∧ r.year = some y := by
    intro r hr
    have hmem := hsubC r hr
    exact ⟨hc r (List.mem_filter.mp hmem).1, of_decide_eq_true (List.mem_filter.mp hmem).2⟩
  have hmemW : ∀ r ∈ sampler seed (nMin cdf wdf y) (wdf.filter (fun r => r.year = some y)),
      r.source_category = "Western Media" ∧ r.year = some y := by
    intro r hr
    have hmem := hsubW r hr
    exact ⟨hw r (List.mem_filter.mp hmem).1, of_decide_eq_true (List.mem_filter.mp hmem).2⟩
  rw [countCatYear_append, countCatYear_append]
  have hCzeroW : countCatYear "Chinese State Media" y'
      (sampler seed (nMin cdf wdf y) (wdf.filter (fun r => r.year = some y))) = 0 := by
    unfold countCatYear
    have hnil : (sampler seed (nMin cdf wdf y)
        (wdf.filter (fun r => r.year = some y))).filter
        (fun r => decide (r.source_category = "Chinese State Media") &&
          decide (r.year = some y')) = [] := by
      apply List.filter_eq_nil_iff.mpr
      intro r hr
      simp [(hmemW r hr).1]
    rw [hnil]
    rfl
  have hWzeroC : countCatYear "Western Media" y'
      (sampler seed (nMin cdf wdf y) (cdf.filter (fun r => r.year = some y))) = 0 := by
    unfold countCatYear
    have hnil : (sampler seed (nMin cdf wdf y)
        (cdf.filter (fun r => r.year = some y))).filter
        (fun r => decide (r.source_category = "Western Media") &&
          decide (r.year = some y')) = [] := by
      apply List.filter_eq_nil_iff.mpr
      intro r hr
      simp [(hmemC r hr).1]
    rw [hnil]
    rfl
  by_cases hyy : y' = y
  · subst hyy
    have hCfull : countCatYear "Chinese State Media" y'
        (sampler seed (nMin cdf wdf y') (cdf.filter (fun r => r.year = some y'))) =
        nMin cdf wdf y' := by
      unfold countCatYear
      have hself : (sampler seed (nMin cdf wdf y')
          (cdf.filter (fun r => r.year = some y'))).filter
          (fun r => decide (r.source_category = "Chinese State Media") &&
            decide (r.year = some y')) =
          sampler seed (nMin cdf wdf y') (cdf.filter (fun r => r.year = some y')) := by
        apply List.filter_eq_self.mpr
        intro r hr
        simp [(hmemC r hr).1, (hmemC r hr).2]
      rw [hself, hlenC]
    have hWfull : countCatYear "Western Media" y'
        (sampler seed (nMin cdf wdf y') (wdf.filter (fun r => r.year = some y'))) =
        nMin cdf wdf y' := by
      unfold countCatYear
      have hself : (sampler seed (nMin cdf wdf y')
          (wdf.filter (fun r => r.year = some y'))).filter
          (fun r => decide (r.source_category = "Western Media") &&
            decide (r.year = some y')) =
          sampler seed (nMin cdf wdf y') (wdf.filter (fun r => r.year = some y')) := by
        apply List.filter_eq_self.mpr
        intro r hr
        simp [(hmemW r hr).1, (hmemW r hr).2]
      rw [hself, hlenW]
    simp [hCfull, hWfull, hCzeroW, hWzeroC]
  · have hCzC : countCatYear "Chinese State Media" y'
        (sampler seed (nMin cdf wdf y) (cdf.filter (fun r => r.year = some y))) = 0 := by
      unfold countCatYear
      have hnil : (sampler seed (nMin cdf wdf y)
          (cdf.filter (fun r => r.year = some y))).filter
          (fun r => decide (r.source_category = "Chinese State Media") &&
            decide (r.year = some y')) = [] := by
        apply List.filter_eq_nil_iff.mpr
        intro r hr
        simp only [Bool.and_eq_true, decide_eq_true_eq, not_and]
        intro _ h2
        have := ((hmemC r hr).2.symm.trans h2)
        exact hyy (Option.some_inj.mp this).symm
      rw [hnil]
      rfl
    have hWzW : countCatYear "Western Media" y'
        (sampler seed (nMin cdf wdf y) (wdf.filter (fun r => r.year = some y))) = 0 := by
      unfold countCatYear
      have hnil : (sampler seed (nMin cdf wdf y)
          (wdf.filter (fun r => r.year = some y))).filter
          (fun r => decide (r.source_category = "Western Media") &&
            decide (r.year = some y')) = [] := by
        apply List.filter_eq_nil_iff.mpr
        intro r hr
        simp only [Bool.and_eq_true, decide_eq_true_eq, not_and]
        intro _ h2
        have := ((hmemW r hr).2.symm.trans h2)
        exact hyy (Option.some_inj.mp this).symm
      rw [hnil]
      rfl
    simp [hyy, hCzC, hWzW, hCzeroW, hWzeroC]

/-- Category-and-year counts of the flattened sample frames over a
duplicate-free list of years: a year contributes its `n_sample` to each
category when positive, and nothing otherwise. -/
theorem frames_count {sampler : Nat → Nat → List Article → List Article}
    {seed : Nat} {cdf wdf : List Article}
    (hs : SamplerOK sampler)
    (hc : ∀ r ∈ cdf, r.source_category = "Chinese State Media")
    (hw : ∀ r ∈ wdf, r.source_category = "Western Media") (y' : Int) :
    ∀ ys : List Int, ys.Nodup →
    (countCatYear "Chinese State Media" y'
        ((ys.filterMap (yearFrame sampler seed cdf wdf)).flatten) =
      (if y' ∈ ys ∧ 0 < nMin cdf wdf y' then nMin cdf wdf y' else 0)) ∧
    (countCatYear "Western Media" y'
        ((ys.filterMap (yearFrame sampler seed cdf wdf)).flatten) =
      (if y' ∈ ys ∧ 0 < nMin cdf wdf y' then nMin cdf wdf y' else 0)) := by
  intro ys
  induction ys with
  | nil => simp [countCatYear]
  | cons y0 rest ih =>
    intro hnd
    have hy0 : y0 ∉ rest := (List.nodup_cons.mp hnd).1
    have ihr := ih (List.nodup_cons.mp hnd).2
    cases hfr : yearFrame sampler seed cdf wdf y0 with
    | none =>
      have h0 : nMin cdf wdf y0 = 0 := yearFrame_none hfr
      rw [List.filterMap_cons_none hfr] at *
      by_cases hyy : y' = y0
      · subst hyy
        simp [ihr.1, ihr.2, h0, hy0]
      · simp only [List.mem_cons]
        constructor
        · rw [ihr.1]
          simp [hyy]
        · rw [ihr.2]
          simp [hyy]
    | some F =>
      rw [List.filterMap_cons_some hfr]
      rw [List.flatten_cons]
      rw [countCatYear_append, countCatYear_append]
      have hfc := yearFrame_count hs hc hw hfr y'
      by_cases hyy : y' = y0
      · subst hyy
        have hpos := (yearFrame_some hfr).1
        have hrest0 : (if y' ∈ rest ∧ 0 < nMin cdf wdf y' then nMin cdf wdf y' else 0) = 0 := by
          simp [hy0]
        constructor
        · rw [hfc.1, ihr.1, hrest0]
          simp [hpos]
        · rw [hfc.2, ihr.2, hrest0]
          simp [hpos]
      · constructor
        · rw [hfc.1, ihr.1]
          simp only [List.mem_cons, hyy]
          simp [hyy]
        · rw [hfc.2, ihr.2]
          simp only [List.mem_cons, hyy]
          simp [hyy]

/-- Membership in the restricted year list of `create_balanced_dataset`. -/
theorem mem_balancedYears {df : List Article} {y : Int} :
    y ∈ balancedYears df ↔
      (∃ r ∈ df, r.year = some y) ∧ 2017 ≤ y ∧ y ≤ 2024 := by
  unfold balancedYears
  rw [List.mem_filter]
  rw [(List.perm_insertionSort (· ≤ ·) _).mem_iff, List.mem_dedup, List.mem_filterMap]
  simp

/-- The restricted year list is duplicate-free. -/
theorem nodup_balancedYears (df : List Article) : (balancedYears df).Nodup := by
  unfold balancedYears
  have h1 : (List.insertionSort (· ≤ ·) (df.filterMap (fun r => r.year)).dedup).Nodup :=
    ((List.perm_insertionSort (· ≤ ·) _).nodup_iff).mpr (List.nodup_dedup _)
  exact h1.filter _

/-- Every record of `chinese_df` carries the Chinese category label. -/
theorem chineseOf_cat (df : List Article) :
    ∀ r ∈ chineseOf df, r.source_category = "Chinese State Media" := by
  intro r hr
  exact of_decide_eq_true (List.mem_filter.mp hr).2

/-- Every record of `western_df` carries the Western category label. -/
theorem westernOf_cat (df : List Article) :
    ∀ r ∈ westernOf df, r.source_category = "Western Media" := by
  intro r hr
  exact of_decide_eq_true (List.mem_filter.mp hr).2

/-- Successful balancing means the frame list was non-empty and the
output is its concatenation. -/
theorem create_balanced_ok {sampler : Nat → Nat → List Article → List Article}
    {df : List Article} {seed : Nat} {out : List Article}
    (hout : create_balanced_dataset sampler df seed = Except.ok out) :
    out = (balancedFrames sampler df seed).flatten := by
  unfold create_balanced_dataset at hout
  split at hout
  · cases hout
  · exact (Except.ok.inj hout).symm

/-- The per-year sample size equals the min of the two category-and-year
counts of the full input corpus. -/
theorem nMin_eq_counts (df : List Article) (y : Int) :
    nMin (chineseOf df) (westernOf df) y =
      min (countCatYear "Chinese State Media" y df) (countCatYear "Western Media" y df) := by
  unfold nMin chineseOf westernOf countCatYear
  rw [List.filter_filter, List.filter_filter]
  have hcomm : ∀ cat : String,
      List.filter (fun r : Article => decide (r.year = some y) &&
        decide (r.source_category = cat)) df =
      List.filter (fun r : Article => decide (r.source_category = cat) &&
        decide (r.year = some y)) df := by
    intro cat
    apply List.filter_congr
    intro r _
    exact Bool.and_comm _ _
  rw [hcomm, hcomm]

/-- C1: for every corpus given to the balanced sampler (under the seeded
pandas sampling contract) and every year `y` appearing in the balanced
output, the number of output records with source_category Chinese State
Media and year `y` equals the number with Western Media and year `y`,
and both equal `min(nC, nW)` for the per-category input counts at `y`. -/
theorem C1_balance_invariant
    (sampler : Nat → Nat → List Article → List Article)
    (df : List Article) (seed : Nat) (out : List Article) (y : Int)
    (hs : SamplerOK sampler)
    (hout : create_balanced_dataset sampler df seed = Except.ok out)
    (hy : ∃ r ∈ out, r.year = some y) :
    countCatYear "Chinese State Media" y out =
      min (countCatYear "Chinese State Media" y df) (countCatYear "Western Media" y df) ∧
    countCatYear "Western Media" y out =
      min (countCatYear "Chinese State Media" y df) (countCatYear "Western Media" y df) := by
  have hout_eq := create_balanced_ok hout
  subst hout_eq
  obtain ⟨r, hr, hry⟩ := hy
  obtain ⟨F, hFmem, hrF⟩ := List.mem_flatten.mp hr
  rw [balancedFrames] at hFmem
  obtain ⟨y0, hy0mem, hy0F⟩ := List.mem_filterMap.mp hFmem
  have hyr0 : r.year = some y0 := yearFrame_year hs hy0F r hrF
  have hy0y : y0 = y := Option.some_inj.mp (hyr0.symm.trans hry)
  subst hy0y
  have hpos : 0 < nMin (chineseOf df) (westernOf df) y0 := (yearFrame_some hy0F).1
  have hcnt := @frames_count sampler seed (chineseOf df) (westernOf df)
    hs (chineseOf_cat df) (westernOf_cat df) y0
    (balancedYears df) (nodup_balancedYears df)
  rw [balancedFrames]
  constructor
  · rw [hcnt.1, if_pos ⟨hy0mem, hpos⟩, nMin_eq_counts]
  · rw [hcnt.2, if_pos ⟨hy0mem, hpos⟩, nMin_eq_counts]

/-- Closed instance of C1 at a concrete corpus and sampler. -/
theorem C1_balance_invariant_witness :
    SamplerOK takeSampler ∧
    create_balanced_dataset takeSampler
      [mkArt 0 "Chinese State Media" (some 2018) (some "c0") 25,
       mkArt 1 "Western Media" (some 2018) (some "w0") 25,
       mkArt 2 "Western Media" (some 2018) (some "w1") 25] 42 =
      Except.ok
        [mkArt 0 "Chinese State Media" (some 2018) (some "c0") 25,
         mkArt 1 "Western Media" (some 2018) (some "w0") 25] ∧
    (∃ r ∈ [mkArt 0 "Chinese State Media" (some 2018) (some "c0") 25,
            mkArt 1 "Western Media" (some 2018) (some "w0") 25], r.year = some 2018) ∧
    (countCatYear "Chinese State Media" 2018
        [mkArt 0 "Chinese State Media" (some 2018) (some "c0") 25,
         mkArt 1 "Western Media" (some 2018) (some "w0") 25] =
      min (countCatYear "Chinese State Media" 2018
            [mkArt 0 "Chinese State Media" (some 2018) (some "c0") 25,
             mkArt 1 "Western Media" (some 2018) (some "w0") 25,
             mkArt 2 "Western Media" (some 2018) (some "w1") 25])
          (countCatYear "Western Media" 2018
            [mkArt 0 "Chinese State Media" (some 2018) (some "c0") 25,
             mkArt 1 "Western Media" (some 2018) (some "w0") 25,
             mkArt 2 "Western Media" (some 2018) (some "w1") 25]) ∧
    countCatYear "Western Media" 2018
        [mkArt 0 "Chinese State Media" (some 2018) (some "c0") 25,
         mkArt 1 "Western Media" (some 2018) (some "w0") 25] =
      min (countCatYear "Chinese State Media" 2018
            [mkArt 0 "Chinese State Media" (some 2018) (some "c0") 25,
             mkArt 1 "Western Media" (some 2018) (some "w0") 25,
             mkArt 2 "Western Media" (some 2018) (some "w1") 25])
          (countCatYear "Western Media" 2018
            [mkArt 0 "Chinese State Media" (some 2018) (some "c0") 25,
             mkArt 1 "Western Media" (some 2018) (some "w0") 25,
             mkArt 2 "Western Media" (some 2018) (some "w1") 25])) :=
  ⟨takeSampler_ok, rfl, by decide,
    C1_balance_invariant takeSampler _ 42 _ 2018 takeSampler_ok rfl (by decide)⟩

/-- C2: balancing is deterministic: it is a pure function of the corpus
and the seed (the embedding draws on no clock or hardware entropy), so
identical inputs and identical seeds give identical balanced outputs. -/
theorem C2_determinism (sampler : Nat → Nat → List Article → List Article)
    (dfA dfB : List Article) (seedA seedB : Nat)
    (hdf : dfA = dfB) (hseed : seedA = seedB) :
    create_balanced_dataset sampler dfA seedA = create_balanced_dataset sampler dfB seedB := by
  subst hdf
  subst hseed
  rfl

/-- Closed instance of C2 at a concrete corpus and seed. -/
theorem C2_determinism_witness :
    ([mkArt 0 "Chinese State Media" (some 2018) none 25] =
      [mkArt 0 "Chinese State Media" (some 2018) none 25]) ∧
    create_balanced_dataset takeSampler [mkArt 0 "Chinese State Media" (some 2018) none 25] 42 =
      create_balanced_dataset takeSampler [mkArt 0 "Chinese State Media" (some 2018) none 25] 42 :=
  ⟨rfl, C2_determinism takeSampler _ _ 42 42 rfl rfl⟩

/-- C3: a url value occurring more than once before deduplication has
exactly one surviving record, namely the first one in traversal order. -/
theorem C3_dedup_first_seen (l : List Article) (u : String)
    (hdup : 1 < (l.filter (fun r => r.url = some u)).length) :
    (drop_duplicates_url l).filter (fun r => r.url = some u) =
      (l.filter (fun r => r.url = some u)).take 1 ∧
    ((drop_duplicates_url l).filter (fun r => r.url = some u)).length = 1 := by
  have h := dropDupGo_filter (some u) l []
  rw [if_neg (by simp)] at h
  unfold drop_duplicates_url
  refine ⟨h, ?_⟩
  rw [h, List.length_take]
  exact Nat.min_eq_left (by omega)

/-- Closed instance of C3 at a concrete corpus with a doubled url. -/
theorem C3_dedup_first_seen_witness :
    1 < ([mkArt 0 "c" none (some "u") 0, mkArt 1 "c" none (some "u") 0,
          mkArt 2 "c" none (some "v") 0].filter (fun r => r.url = some "u")).length ∧
    (((drop_duplicates_url [mkArt 0 "c" none (some "u") 0, mkArt 1 "c" none (some "u") 0,
          mkArt 2 "c" none (some "v") 0]).filter (fun r => r.url = some "u")) =
      ([mkArt 0 "c" none (some "u") 0, mkArt 1 "c" none (some "u") 0,
        mkArt 2 "c" none (some "v") 0].filter (fun r => r.url = some "u")).take 1 ∧
      ((drop_duplicates_url [mkArt 0 "c" none (some "u") 0, mkArt 1 "c" none (some "u") 0,
          mkArt 2 "c" none (some "v") 0]).filter (fun r => r.url = some "u")).length = 1) :=
  ⟨by decide, C3_dedup_first_seen _ "u" (by decide)⟩

/-- C4 as stated is false on the code: `drop_duplicates` treats two
`NaN` urls (and two empty-string urls) as duplicates, so the later
record does not survive. -/
theorem C4_counterexample :
    drop_duplicates_url [mkArt 0 "c" none none 0, mkArt 1 "c" none none 0] =
      [mkArt 0 "c" none none 0] ∧
    (mkArt 1 "c" none none 0) ∉
      drop_duplicates_url [mkArt 0 "c" none none 0, mkArt 1 "c" none none 0] ∧
    drop_duplicates_url [mkArt 2 "c" none (some "") 0, mkArt 3 "c" none (some "") 0] =
      [mkArt 2 "c" none (some "") 0] := by decide

/-- C4 amended: records with a missing or empty url are deduplicated
like any other url value: among all `NaN`-url records exactly the first
survives, and among all empty-string-url records exactly the first
survives. -/
theorem C4_amended (l : List Article) :
    (drop_duplicates_url l).filter (fun r => r.url = none) =
      (l.filter (fun r => r.url = none)).take 1 ∧
    (drop_duplicates_url l).filter (fun r => r.url = some "") =
      (l.filter (fun r => r.url = some "")).take 1 := by
  constructor
  · have h := dropDupGo_filter none l []
    rw [if_neg (by simp)] at h
    exact h
  · have h := dropDupGo_filter (some "") l []
    rw [if_neg (by simp)] at h
    exact h

/-- C6: the content filter never grows the corpus, and every surviving
record has at least the required token count. -/
theorem C6_filter_monotone (df : List Article) (min_tokens : Nat) :
    (filter_short_articles df min_tokens).length ≤ df.length ∧
    ∀ r ∈ filter_short_articles df min_tokens, min_tokens ≤ r.token_count := by
  constructor
  · exact List.length_filter_le _ _
  · intro r hr
    exact of_decide_eq_true (List.mem_filter.mp hr).2

/-- C7: when either category loads zero records the run terminates with
the descriptive load-failure error, before any sampling, and no
artifact state is reached. -/
theorem C7_missing_input (sampler : Nat → Nat → List Article → List Article)
    (tok : String → List String) (hasUrlColumn : Bool)
    (chinese_df western_df : List Article) (seed : Nat)
    (h : chinese_df = [] ∨ western_df = []) :
    mainPipeline sampler tok hasUrlColumn chinese_df western_df seed =
      Except.error "ERROR: Could not load data from one or both sources!" := by
  unfold mainPipeline
  rcases h with h | h <;> subst h <;> simp

/-- Closed instance of C7 with an empty Chinese category. -/
theorem C7_missing_input_witness :
    (([] : List Article) = [] ∨ [mkArt 0 "Western Media" (some 2018) none 25] = []) ∧
    mainPipeline takeSampler (fun s => [s]) true []
        [mkArt 0 "Western Media" (some 2018) none 25] 42 =
      Except.error "ERROR: Could not load data from one or both sources!" :=
  ⟨Or.inl rfl, C7_missing_input takeSampler (fun s => [s]) true _ _ 42 (Or.inl rfl)⟩

/-- C10: when the combined corpus has no url column the dedup stage is
skipped: it is the identity, so every record, including exact copies of
other records, passes through unchanged to text normalization. -/
theorem C10_no_url_skip (hasUrlColumn : Bool) (df : List Article)
    (h : hasUrlColumn = false) :
    dedupStage hasUrlColumn df = df := by
  subst h
  rfl

/-- Closed instance of C10 on a corpus of two exact copies. -/
theorem C10_no_url_skip_witness :
    (false = false) ∧
    dedupStage false [mkArt 0 "c" (some 2018) none 5, mkArt 0 "c" (some 2018) none 5] =
      [mkArt 0 "c" (some 2018) none 5, mkArt 0 "c" (some 2018) none 5] :=
  ⟨rfl, C10_no_url_skip false _ rfl⟩

/-- The head of a `dropWhile` output never satisfies the predicate. -/
theorem head_dropWhile_not (p : Char → Bool) :
    ∀ (l : List Char) (c : Char), (l.dropWhile p).head? = some c → p c = false := by
  intro l
  induction l with
  | nil => intro c h; cases h
  | cons a as ih =>
    intro c h
    rw [List.dropWhile_cons] at h
    by_cases hp : p a
    · rw [if_pos hp] at h
      exact ih c h
    · rw [if_neg hp] at h
      have hac : a = c := by simpa using h
      subst hac
      exact Bool.eq_false_iff.mpr hp

/-- Characters surviving `pyStrip` come from the input. -/
theorem pyStrip_subset (l : List Char) : ∀ c ∈ pyStrip l, c ∈ l := by
  intro c hc
  unfold pyStrip at hc
  rw [List.mem_reverse] at hc
  have h1 := (List.dropWhile_sublist _).subset hc
  rw [List.mem_reverse] at h1
  exact (List.dropWhile_sublist _).subset h1

/-- Characters of a collapsed string are single spaces or non-space
characters of the input. -/
theorem mem_collapseWsGo :
    ∀ (fuel : Nat) (l : List Char) (c : Char), l.length ≤ fuel →
      c ∈ collapseWsGo fuel l → c = ' ' ∨ (c ∈ l ∧ pyIsSpace c = false) := by
  intro fuel
  induction fuel with
  | zero =>
    intro l c hl hc
    rw [List.length_eq_zero.mp (Nat.le_zero.mp hl)] at hc
    cases hc
  | succ n ih =>
    intro l c hl hc
    cases l with
    | nil => cases hc
    | cons a as =>
      by_cases hp : pyIsSpace a
      · rw [collapseWsGo, if_pos hp] at hc
        rcases List.mem_cons.mp hc with h | h
        · exact Or.inl h
        · have hlen : (List.dropWhile pyIsSpace as).length ≤ n :=
            le_trans (List.dropWhile_sublist _).length_le (Nat.le_of_succ_le_succ hl)
          rcases ih _ c hlen h with h' | ⟨hmem, hns⟩
          · exact Or.inl h'
          · exact Or.inr ⟨List.mem_cons_of_mem _ ((List.dropWhile_sublist _).subset hmem), hns⟩
      · rw [collapseWsGo, if_neg hp] at hc
        rcases List.mem_cons.mp hc with h | h
        · subst h
          exact Or.inr ⟨List.mem_cons_self _ _, Bool.eq_false_iff.mpr hp⟩
        · rcases ih as c (Nat.le_of_succ_le_succ hl) h with h' | ⟨hmem, hns⟩
          · exact Or.inl h'
          · exact Or.inr ⟨List.mem_cons_of_mem _ hmem, hns⟩

/-- Characters after the whitelist substitution satisfy the whitelist
(every substituted character is a space, which is whitelisted). -/
theorem mem_substSpecial (l : List Char) (c : Char) (hc : c ∈ substSpecial l) :
    (isWordChar c || pyIsSpace c || allowedPunct c) = true := by
  unfold substSpecial at hc
  obtain ⟨d, _, hdc⟩ := List.mem_map.mp hc
  by_cases h : (isWordChar d || pyIsSpace d || allowedPunct d) = true
  · rw [if_pos h] at hdc
    subst hdc
    exact h
  · rw [if_neg h] at hdc
    subst hdc
    decide

/-- The first character of a stripped string is not whitespace. -/
theorem pyStrip_head (l : List Char) (c : Char) (h : (pyStrip l).head? = some c) :
    pyIsSpace c = false := by
  unfold pyStrip at h
  cases hm : l.dropWhile pyIsSpace with
  | nil => rw [hm] at h; cases h
  | cons a as =>
    have ha : pyIsSpace a = false :=
      head_dropWhile_not pyIsSpace l a (by rw [hm]; rfl)
    rw [hm, List.reverse_cons, List.dropWhile_append] at h
    by_cases he : (List.dropWhile pyIsSpace as.reverse).isEmpty = true
    · rw [if_pos he] at h
      rw [List.dropWhile_cons, List.dropWhile_nil] at h
      rw [if_neg (by simp [ha])] at h
      have hac : a = c := by simpa using h
      subst hac
      exact ha
    · rw [if_neg he, List.reverse_append] at h
      have hac : a = c := by simpa using h
      subst hac
      exact ha

/-- The last character of a stripped string is not whitespace. -/
theorem pyStrip_last (l : List Char) (c : Char)
    (h : (pyStrip l).reverse.head? = some c) : pyIsSpace c = false := by
  unfold pyStrip at h
  rw [List.reverse_reverse] at h
  exact head_dropWhile_not pyIsSpace _ c h

/-- C5's wording fails on the code at the input "a@b": removing the
non-whitelisted character '@' would give "ab", but the code replaces it
with a space and returns "a b". -/
theorem C5_counterexample :
    clean_text (some "a@b") = "a b" ∧
    clean_text_spec (some "a@b") = "ab" ∧
    clean_text (some "a@b") ≠ clean_text_spec (some "a@b") := by decide

/-- C5 amended: Clean always returns a string, never null: a null or
non-string input yields the empty string; characters outside the
whitelist are replaced by a space rather than deleted (witnessed at
"a@b"); after URL or tag stripping, substitution, whitespace collapsing
and trimming, every output character is a word character, an allowed
punctuation character, or a single space, and the output has no leading
or trailing whitespace; the worked example holds as stated. -/
theorem C5_clean_text_amended :
    clean_text none = "" ∧
    clean_text (some "Tibet is <b>beautiful</b>. Visit http://x.com now!") =
      "Tibet is beautiful. Visit now!" ∧
    clean_text (some "a@b") = "a b" ∧
    (∀ s : String, ∀ c ∈ (clean_text (some s)).data,
      (isWordChar c || allowedPunct c || (c == ' ')) = true) ∧
    (∀ s : String, ∀ c : Char,
      ((clean_text (some s)).data.head? = some c → pyIsSpace c = false) ∧
      ((clean_text (some s)).data.reverse.head? = some c → pyIsSpace c = false)) := by
  refine ⟨rfl, by decide, by decide, ?_, ?_⟩
  · intro s c hc
    have hc' : c ∈ pyStrip (collapseWs (substSpecial (stripTags (stripUrls s.data)))) := hc
    have h1 := pyStrip_subset _ c hc'
    rw [collapseWs] at h1
    rcases mem_collapseWsGo _ _ c (le_refl _) h1 with h | ⟨hmem, hns⟩
    · subst h
      decide
    · have h3 := mem_substSpecial _ c hmem
      rw [hns] at h3
      simp only [Bool.or_false] at h3
      rcases Bool.or_eq_true_iff.mp h3 with h | h <;> simp [h]
  · intro s c
    constructor
    · intro h
      exact pyStrip_head _ c h
    · intro h
      exact pyStrip_last _ c h

/-- Closed instance of the trimming clauses of the amended C5. -/
theorem C5_clean_text_amended_witness :
    (clean_text (some "  hi there  ")).data.head? = some 'h' ∧ pyIsSpace 'h' = false :=
  ⟨by decide, (C5_clean_text_amended.2.2.2.2 "  hi there  " 'h').1 (by decide)⟩

/-- A year whose `n_sample` is zero receives no records in any frame. -/
theorem frames_countYear_zero {sampler : Nat → Nat → List Article → List Article}
    {seed : Nat} {cdf wdf : List Article}
    (hs : SamplerOK sampler) (y0 : Int) (h0 : nMin cdf wdf y0 = 0) :
    ∀ ys : List Int,
      countYear y0 ((ys.filterMap (yearFrame sampler seed cdf wdf)).flatten) = 0 := by
  intro ys
  induction ys with
  | nil => rfl
  | cons y1 rest ih =>
    cases hfr : yearFrame sampler seed cdf wdf y1 with
    | none =>
      rw [List.filterMap_cons_none hfr]
      exact ih
    | some F =>
      rw [List.filterMap_cons_some hfr, List.flatten_cons]
      unfold countYear at ih ⊢
      rw [List.filter_append, List.length_append]
      have hne : y1 ≠ y0 := by
        intro he
        have hpos := (yearFrame_some hfr).1
        rw [he, h0] at hpos
        exact Nat.lt_irrefl 0 hpos
      have hFz : F.filter (fun r => r.year = some y0) = [] := by
        apply List.filter_eq_nil_iff.mpr
        intro r hr
        have hry := yearFrame_year hs hfr r hr
        simp only [decide_eq_true_eq]
        rw [hry]
        intro hcon
        exact hne (Option.some_inj.mp hcon)
      rw [hFz]
      simpa using ih

/-- C8 fails on the code: with both categories non-empty but no year in
which both categories have records, every iteration of the year loop is
skipped, the list of sample frames stays empty, and the final
`pd.concat` raises `ValueError`: the run terminates without producing
either artifact even though neither category was missing. -/
theorem C8_counterexample :
    ([mkArt 0 "Chinese State Media" (some 2018) (some "c0") 25] ≠ ([] : List Article)) ∧
    ([mkArt 1 "Western Media" (some 2019) (some "w0") 25] ≠ ([] : List Article)) ∧
    mainPipeline takeSampler (fun s => List.replicate 20 s) true
      [mkArt 0 "Chinese State Media" (some 2018) (some "c0") 25]
      [mkArt 1 "Western Media" (some 2019) (some "w0") 25] 42 =
      Except.error "No objects to concatenate" :=
  ⟨by decide, by decide, rfl⟩

/-- C8 amended: in a run where both categories are non-empty and at
least one year in `[2017, 2024]` has records of both categories after
preprocessing and filtering, the run reaches the artifact state, and
any year in which either category has zero records contributes zero
records to the balanced output; when no year overlaps at all, however,
the empty concatenation terminates the run (see the counterexample), so
MissingInput is not the only terminating condition. -/
theorem C8_zero_overlap_amended
    (sampler : Nat → Nat → List Article → List Article)
    (tok : String → List String) (hasUrlColumn : Bool)
    (chinese_df western_df : List Article) (seed : Nat)
    (hs : SamplerOK sampler)
    (hc : chinese_df ≠ []) (hw : western_df ≠ [])
    (y : Int) (hy1 : 2017 ≤ y) (hy2 : y ≤ 2024)
    (hyC : 0 < countCatYear "Chinese State Media" y
      (pipelineCorpus tok hasUrlColumn chinese_df western_df))
    (hyW : 0 < countCatYear "Western Media" y
      (pipelineCorpus tok hasUrlColumn chinese_df western_df)) :
    ∃ out, mainPipeline sampler tok hasUrlColumn chinese_df western_df seed = Except.ok out ∧
      ∀ y0 : Int,
        min (countCatYear "Chinese State Media" y0
              (pipelineCorpus tok hasUrlColumn chinese_df western_df))
            (countCatYear "Western Media" y0
              (pipelineCorpus tok hasUrlColumn chinese_df western_df)) = 0 →
        countYear y0 out = 0 := by
  have hnotempty : ¬ (chinese_df.length = 0 ∨ western_df.length = 0) := by
    rw [List.length_eq_zero, List.length_eq_zero]
    rintro (h | h)
    · exact hc h
    · exact hw h
  have hminpos : 0 < nMin (chineseOf (pipelineCorpus tok hasUrlColumn chinese_df western_df))
      (westernOf (pipelineCorpus tok hasUrlColumn chinese_df western_df)) y := by
    rw [nMin_eq_counts]
    exact lt_min hyC hyW
  have hmem : y ∈ balancedYears (pipelineCorpus tok hasUrlColumn chinese_df western_df) := by
    rw [mem_balancedYears]
    refine ⟨?_, hy1, hy2⟩
    have hne : (pipelineCorpus tok hasUrlColumn chinese_df western_df).filter
        (fun r => decide (r.source_category = "Chinese State Media") &&
          decide (r.year = some y)) ≠ [] := by
      intro hnil
      rw [countCatYear, hnil] at hyC
      exact Nat.lt_irrefl 0 hyC
    obtain ⟨r, hr⟩ := List.exists_mem_of_ne_nil _ hne
    have hr' := List.mem_filter.mp hr
    have h2 := hr'.2
    rw [Bool.and_eq_true] at h2
    exact ⟨r, hr'.1, of_decide_eq_true h2.2⟩
  have hfr : ∃ F, yearFrame sampler seed
      (chineseOf (pipelineCorpus tok hasUrlColumn chinese_df western_df))
      (westernOf (pipelineCorpus tok hasUrlColumn chinese_df western_df)) y = some F := by
    simp only [yearFrame]
    rw [if_pos]
    · exact ⟨_, rfl⟩
    · exact hminpos
  obtain ⟨F, hF⟩ := hfr
  have hframes_ne : balancedFrames sampler
      (pipelineCorpus tok hasUrlColumn chinese_df western_df) seed ≠ [] := by
    intro hnil
    have : F ∈ balancedFrames sampler
        (pipelineCorpus tok hasUrlColumn chinese_df western_df) seed := by
      rw [balancedFrames]
      exact List.mem_filterMap.mpr ⟨y, hmem, hF⟩
    rw [hnil] at this
    cases this
  refine ⟨(balancedFrames sampler
      (pipelineCorpus tok hasUrlColumn chinese_df western_df) seed).flatten, ?_, ?_⟩
  · unfold mainPipeline
    rw [if_neg hnotempty]
    unfold create_balanced_dataset
    rw [if_neg (by simpa using hframes_ne)]
  · intro y0 h0
    rw [balancedFrames]
    apply frames_countYear_zero hs y0
    rw [nMin_eq_counts]
    exact h0

/-- Closed instance of the amended C8 with an overlap year (2018) and a
zero-overlap year (2019). -/
theorem C8_zero_overlap_amended_witness :
    SamplerOK takeSampler ∧
    ([mkArt 0 "Chinese State Media" (some 2018) (some "c0") 25] ≠ ([] : List Article)) ∧
    ([mkArt 1 "Western Media" (some 2018) (some "w0") 25,
      mkArt 2 "Western Media" (some 2019) (some "w1") 25] ≠ ([] : List Article)) ∧
    (0 < countCatYear "Chinese State Media" 2018
      (pipelineCorpus (fun s => List.replicate 20 s) true
        [mkArt 0 "Chinese State Media" (some 2018) (some "c0") 25]
        [mkArt 1 "Western Media" (some 2018) (some "w0") 25,
         mkArt 2 "Western Media" (some 2019) (some "w1") 25])) ∧
    (∃ out, mainPipeline takeSampler (fun s => List.replicate 20 s) true
        [mkArt 0 "Chinese State Media" (some 2018) (some "c0") 25]
        [mkArt 1 "Western Media" (some 2018) (some "w0") 25,
         mkArt 2 "Western Media" (some 2019) (some "w1") 25] 42 = Except.ok out ∧
      ∀ y0 : Int,
        min (countCatYear "Chinese State Media" y0
              (pipelineCorpus (fun s => List.replicate 20 s) true
                [mkArt 0 "Chinese State Media" (some 2018) (some "c0") 25]
                [mkArt 1 "Western Media" (some 2018) (some "w0") 25,
                 mkArt 2 "Western Media" (some 2019) (some "w1") 25]))
            (countCatYear "Western Media" y0
              (pipelineCorpus (fun s => List.replicate 20 s) true
                [mkArt 0 "Chinese State Media" (some 2018) (some "c0") 25]
                [mkArt 1 "Western Media" (some 2018) (some "w0") 25,
                 mkArt 2 "Western Media" (some 2019) (some "w1") 25])) = 0 →
        countYear y0 out = 0) :=
  ⟨takeSampler_ok, by decide, by decide, by decide,
    C8_zero_overlap_amended takeSampler (fun s => List.replicate 20 s) true _ _ 42
      takeSampler_ok (by decide) (by decide) 2018 (by decide) (by decide)
      (by decide) (by decide)⟩

/-- Renaming `old` to `new` leaves the pairs of any third key intact. -/
theorem renameKey_filter_other (old new k : String) (hko : k ≠ old) (hkn : k ≠ new)
    (df : Row) :
    (renameKey old new df).filter (fun p => p.1 = k) = df.filter (fun p => p.1 = k) := by
  induction df with
  | nil => rfl
  | cons p ps ih =>
    unfold renameKey at ih ⊢
    rw [List.map_cons, List.filter_cons, List.filter_cons]
    by_cases hpo : p.1 = old
    · rw [if_pos hpo]
      have h1 : (decide ((new, p.2).1 = k)) = false := by
        simp [Ne.symm hkn]
      have h2 : (decide (p.1 = k)) = false := by
        simp [hpo, Ne.symm hko]
      rw [h1, h2]
      simpa using ih
    · rw [if_neg hpo]
      by_cases hpk : p.1 = k
      · rw [if_pos (by simpa using hpk), if_pos (by simpa using hpk)]
        simpa using ih
      · rw [if_neg (by simpa using hpk), if_neg (by simpa using hpk)]
        exact ih

/-- Unfolding equation for `containsKey`. -/
theorem containsKey_cons (k : String) (p : String × String) (ps : Row) :
    containsKey k (p :: ps) = ((decide (p.1 = k)) || containsKey k ps) := rfl

/-- Unfolding equation for `renameKey`. -/
theorem renameKey_cons (old new : String) (p : String × String) (ps : Row) :
    renameKey old new (p :: ps) =
      (if p.1 = old then (new, p.2) else p) :: renameKey old new ps := rfl

/-- Renaming cannot introduce a key other than `new`. -/
theorem renameKey_containsKey_false (old new k : String) (hkn : k ≠ new)
    (df : Row) (h : containsKey k df = false) :
    containsKey k (renameKey old new df) = false := by
  induction df with
  | nil => rfl
  | cons p ps ih =>
    rw [containsKey_cons, Bool.or_eq_false_iff] at h
    rw [renameKey_cons, containsKey_cons, Bool.or_eq_false_iff]
    refine ⟨?_, ih h.2⟩
    by_cases hpo : p.1 = old
    · rw [if_pos hpo]
      simp [Ne.symm hkn]
    · rw [if_neg hpo]
      exact h.1

/-- Renaming away from a third key preserves that key's presence. -/
theorem renameKey_containsKey_true (old new k : String) (hko : k ≠ old)
    (df : Row) (h : containsKey k df = true) :
    containsKey k (renameKey old new df) = true := by
  induction df with
  | nil => cases h
  | cons p ps ih =>
    rw [containsKey_cons] at h
    rw [renameKey_cons, containsKey_cons]
    rcases Bool.or_eq_true_iff.mp h with h1 | h2
    · have hpk : p.1 = k := of_decide_eq_true h1
      have hpo : ¬ p.1 = old := by
        rw [hpk]
        exact hko
      rw [if_neg hpo]
      simp [hpk]
    · simp [ih h2]

/-- After renaming every `old`-keyed pair away (to a different name),
the key `old` is gone. -/
theorem renameKey_removes_old (old new : String) (hne : old ≠ new) (df : Row) :
    containsKey old (renameKey old new df) = false := by
  induction df with
  | nil => rfl
  | cons p ps ih =>
    unfold containsKey renameKey at ih ⊢
    rw [List.map_cons, List.any_cons, Bool.or_eq_false_iff]
    refine ⟨?_, ih⟩
    by_cases hpo : p.1 = old
    · rw [if_pos hpo]
      simp [Ne.symm hne]
    · rw [if_neg hpo]
      simpa using hpo

/-- When the target key is absent, the renamed table's `new` column is
exactly the relabelled `old` column. -/
theorem renameKey_filter_target (old new : String) (df : Row)
    (h : containsKey new df = false) :
    (renameKey old new df).filter (fun p => p.1 = new) =
      (df.filter (fun p => p.1 = old)).map (fun p => (new, p.2)) := by
  induction df with
  | nil => rfl
  | cons p ps ih =>
    rw [containsKey_cons, Bool.or_eq_false_iff] at h
    rw [renameKey_cons, List.filter_cons, List.filter_cons]
    by_cases hpo : p.1 = old
    · rw [if_pos hpo, if_pos (by simp), if_pos (by simpa using hpo)]
      rw [List.map_cons]
      simpa using ih h.2
    · rw [if_neg hpo, if_neg (by simpa using h.1), if_neg (by simpa using hpo)]
      exact ih h.2

/-- Folding the rename loop over entries that either target `c` (and
are then skipped, `c` being present) or avoid `c` entirely keeps the
`c` column and its pairs unchanged. -/
theorem foldl_keep_key (c : String) (T : Row) :
    ∀ (entries : List (String × String)) (df : Row),
    (∀ e ∈ entries, e.2 = c ∨ (e.1 ≠ c ∧ e.2 ≠ c)) →
    containsKey c df = true → df.filter (fun p => p.1 = c) = T →
    containsKey c (entries.foldl standardizeStep df) = true ∧
    (entries.foldl standardizeStep df).filter (fun p => p.1 = c) = T := by
  intro entries
  induction entries with
  | nil =>
    intro df _ hc hf
    exact ⟨hc, hf⟩
  | cons e es ih =>
    intro df h hc hf
    rw [List.foldl_cons]
    have hrest : ∀ e' ∈ es, e'.2 = c ∨ (e'.1 ≠ c ∧ e'.2 ≠ c) :=
      fun e' he' => h e' (List.mem_cons_of_mem _ he')
    rcases h e (List.mem_cons_self _ _) with he | ⟨h1, h2⟩
    · have hstep : standardizeStep df e = df := by
        unfold standardizeStep
        rw [if_neg]
        intro hg
        rw [he] at hg
        exact hg.2 hc
      rw [hstep]
      exact ih df hrest hc hf
    · have hc' : containsKey c (standardizeStep df e) = true := by
        unfold standardizeStep
        split
        · exact renameKey_containsKey_true e.1 e.2 c (Ne.symm h1) df hc
        · exact hc
      have hf' : (standardizeStep df e).filter (fun p => p.1 = c) = T := by
        unfold standardizeStep
        split
        · rw [renameKey_filter_other e.1 e.2 c (Ne.symm h1) (Ne.symm h2) df]
          exact hf
        · exact hf
      exact ih _ hrest hc' hf'

/-- Folding the rename loop over entries that never target `c` cannot
create the key `c`. -/
theorem foldl_absent_key (c : String) :
    ∀ (entries : List (String × String)) (df : Row),
    (∀ e ∈ entries, e.2 ≠ c) → containsKey c df = false →
    containsKey c (entries.foldl standardizeStep df) = false := by
  intro entries
  induction entries with
  | nil =>
    intro df _ hc
    exact hc
  | cons e es ih =>
    intro df h hc
    rw [List.foldl_cons]
    have hrest : ∀ e' ∈ es, e'.2 ≠ c := fun e' he' => h e' (List.mem_cons_of_mem _ he')
    have hc' : containsKey c (standardizeStep df e) = false := by
      unfold standardizeStep
      split
      · exact renameKey_containsKey_false e.1 e.2 c
          (Ne.symm (h e (List.mem_cons_self _ _))) df hc
      · exact hc
    exact ih _ hrest hc'

/-- Folding the rename loop over entries that never mention `k` leaves
the `k` column untouched. -/
theorem foldl_filter_other (k : String) :
    ∀ (entries : List (String × String)) (df : Row),
    (∀ e ∈ entries, e.1 ≠ k ∧ e.2 ≠ k) →
    (entries.foldl standardizeStep df).filter (fun p => p.1 = k) =
      df.filter (fun p => p.1 = k) := by
  intro entries
  induction entries with
  | nil =>
    intro df _
    rfl
  | cons e es ih =>
    intro df h
    rw [List.foldl_cons]
    have hrest : ∀ e' ∈ es, e'.1 ≠ k ∧ e'.2 ≠ k :=
      fun e' he' => h e' (List.mem_cons_of_mem _ he')
    rw [ih _ hrest]
    unfold standardizeStep
    split
    · exact renameKey_filter_other e.1 e.2 k
        (Ne.symm (h e (List.mem_cons_self _ _)).1)
        (Ne.symm (h e (List.mem_cons_self _ _)).2) df
    · rfl

/-- Renaming a present key `old` to `new` makes `new` present. -/
theorem renameKey_adds_new (old new : String) (df : Row)
    (h : containsKey old df = true) :
    containsKey new (renameKey old new df) = true := by
  induction df with
  | nil => cases h
  | cons p ps ih =>
    rw [containsKey_cons] at h
    rw [renameKey_cons, containsKey_cons]
    rcases Bool.or_eq_true_iff.mp h with h1 | h2
    · rw [if_pos (of_decide_eq_true h1)]
      simp
    · simp [ih h2]

/-- C9 fails on the code: `standardize_columns` renames instead of
copying, so after standardizing a record whose only matching column is
the alias `title`, the field `title` is no longer present — a field of
the input was deleted. -/
theorem C9_counterexample :
    containsKey "title" [("title", "T")] = true ∧
    standardize_columns [("title", "T")] = [("headline", "T")] ∧
    containsKey "title" (standardize_columns [("title", "T")]) = false := by decide

/-- C9 amended: the standardizer moves (renames) rather than copies.
A canonical column already present is never overwritten or removed
(all its pairs pass through unchanged); any column name not mentioned
in the alias table passes through unchanged; and when the alias `title`
is present while `headline` is absent, the whole `title` column is
relabelled `headline` with its values preserved, and the name `title`
is no longer present in the output. -/
theorem C9_standardize_amended (df : Row) :
    (∀ c ∈ (["headline", "body_text", "publication_date"] : List String),
      containsKey c df = true →
      (standardize_columns df).filter (fun p => p.1 = c) =
        df.filter (fun p => p.1 = c)) ∧
    (∀ k : String, (∀ e ∈ column_mapping, e.1 ≠ k ∧ e.2 ≠ k) →
      (standardize_columns df).filter (fun p => p.1 = k) =
        df.filter (fun p => p.1 = k)) ∧
    (containsKey "title" df = true → containsKey "headline" df = false →
      ((standardize_columns df).filter (fun p => p.1 = "headline") =
        (df.filter (fun p => p.1 = "title")).map (fun p => ("headline", p.2)) ∧
       containsKey "title" (standardize_columns df) = false)) := by
  refine ⟨?_, ?_, ?_⟩
  · intro c hc hkey
    have hentries : ∀ e ∈ column_mapping, e.2 = c ∨ (e.1 ≠ c ∧ e.2 ≠ c) := by
      fin_cases hc <;> decide
    exact (foldl_keep_key c _ column_mapping df hentries hkey rfl).2
  · intro k hk
    exact foldl_filter_other k column_mapping df hk
  · intro ht hh
    have hstep1 : standardizeStep df ("title", "headline") =
        renameKey "title" "headline" df := by
      unfold standardizeStep
      rw [if_pos]
      exact ⟨ht, by simp [hh]⟩
    have hsc : standardize_columns df =
        [("Title", "headline"), ("headline", "headline"), ("Headline", "headline"),
         ("body", "body_text"), ("Body", "body_text"), ("body_text", "body_text"),
         ("text", "body_text"), ("content", "body_text"), ("article_text", "body_text"),
         ("date", "publication_date"), ("Date", "publication_date"),
         ("publication_date", "publication_date"), ("pub_date", "publication_date"),
         ("seendate", "publication_date")].foldl standardizeStep
          (renameKey "title" "headline" df) := by
      unfold standardize_columns column_mapping
      rw [List.foldl_cons, hstep1]
    have hd1 : containsKey "headline" (renameKey "title" "headline" df) = true :=
      renameKey_adds_new "title" "headline" df ht
    have hd2 : (renameKey "title" "headline" df).filter (fun p => p.1 = "headline") =
        (df.filter (fun p => p.1 = "title")).map (fun p => ("headline", p.2)) :=
      renameKey_filter_target "title" "headline" df hh
    have hd3 : containsKey "title" (renameKey "title" "headline" df) = false :=
      renameKey_removes_old "title" "headline" (by decide) df
    constructor
    · rw [hsc]
      exact (foldl_keep_key "headline" _ _ _ (by decide) hd1 hd2).2
    · rw [hsc]
      exact foldl_absent_key "title" _ _ (by decide) hd3

/-- Closed instance of the amended C9 at a concrete record. -/
theorem C9_standardize_amended_witness :
    containsKey "title" [("title", "T"), ("extra", "E")] = true ∧
    containsKey "headline" [("title", "T"), ("extra", "E")] = false ∧
    ((standardize_columns [("title", "T"), ("extra", "E")]).filter
        (fun p => p.1 = "headline") =
      (([("title", "T"), ("extra", "E")] : Row).filter
        (fun p => p.1 = "title")).map (fun p => ("headline", p.2)) ∧
     containsKey "title" (standardize_columns [("title", "T"), ("extra", "E")]) = false) :=
  ⟨by decide, by decide,
    (C9_standardize_amended [("title", "T"), ("extra", "E")]).2.2 (by decide) (by decide)⟩
